import Mathlib

/-!
Verification of the resume-triage agent (`src/main.py`).

The development shallowly embeds the program's data model and operations:

* `analyze_resume` (main.py lines 56-82): the plan-generation call with its
  retry-with-backoff loop, modelled over an oracle `call : Nat → CallResult`
  giving the outcome of the remote `model.generate_content` call on each
  attempt.  Sleeps are recorded as a list of delays (in seconds).
* `log_action` (lines 84-94): the audit-log append, including a model of
  `json.dumps` restricted to the flat string-valued record the program
  writes (escaping of `"`, `\`, and control characters; the `ensure_ascii`
  re-encoding of non-ASCII characters is elided, which does not affect the
  line structure or parse-back properties stated here).
* `execute_file_move` (lines 281-308) and one iteration of
  `Recruiter.process_resumes` (lines 229-276) as `processStep`, over an
  explicit filesystem state (`FsState`) and app state (`AppState`).
* `start_processing` (lines 193-220) with its configuration validation.

Filesystem model: directories and files are lists of path strings;
`shutil.move` succeeds iff the source path is an existing file, and
`os.makedirs` always succeeds.  The audit log is carried both as raw text
(`auditFile`) and as the list of appended records (`audit`); the theorem
for the logging claim ties the two together.
-/

/-- Model of `os.path.dirname` (POSIX): the prefix up to the last `/`,
with trailing slashes stripped unless the prefix is all slashes. -/
def dirname (p : String) : String :=
  let cs := p.data
  let head := (cs.reverse.dropWhile (fun c => c ≠ '/')).reverse
  if head.isEmpty ∨ head.all (fun c => c = '/') then ⟨head⟩
  else ⟨(head.reverse.dropWhile (fun c => c = '/')).reverse⟩

/-- Model of `os.path.join` for two components (POSIX). -/
def pathJoin (a b : String) : String :=
  if b.data.head? = some '/' then b
  else if a = "" ∨ a.data.getLast? = some '/' then a ++ b
  else a ++ "/" ++ b

/-- The two transient exception classes retried by `analyze_resume`
(`api_exceptions.ResourceExhausted`, `api_exceptions.ServiceUnavailable`). -/
inductive TransientKind where
  | resourceExhausted
  | serviceUnavailable
  deriving Repr, DecidableEq

/-- The `command` sub-dictionary of a decision: keys `action` and
`destination_folder` (main.py response schema, lines 36-43). -/
structure Command where
  action : String
  destination_folder : String
  deriving Repr, DecidableEq

/-- A decision dictionary as the Python code handles it: `match_score`,
`thought_process`, and an optional `command` key (the trailing return at
main.py lines 79-82 omits `command`). -/
structure DecisionDict where
  match_score : Int
  thought_process : String
  command : Option Command
  deriving Repr, DecidableEq

/-- A schema-conformant model response (main.py `response_schema`,
lines 31-46): all three top-level keys required, `command` with both
sub-keys required.  A successful, parseable `generate_content` response
has this shape by the configured structured-output schema. -/
structure SchemaDecision where
  match_score : Int
  thought_process : String
  command : Command
  deriving Repr, DecidableEq

/-- The dictionary obtained from `json.loads` of a schema-conformant
response. -/
def SchemaDecision.toDict (d : SchemaDecision) : DecisionDict :=
  { match_score := d.match_score, thought_process := d.thought_process,
    command := some d.command }

/-- Outcome of one `model.generate_content` attempt inside
`analyze_resume` (main.py lines 63-67):
transient API exception, empty/blocked response (raises `ValueError`),
unparsable JSON (raises `JSONDecodeError`), any other exception, or a
successfully parsed schema-conformant decision. -/
inductive CallResult where
  | transientError (k : TransientKind)
  | emptyResponse
  | invalidJson
  | otherException (excName : String)
  | success (d : SchemaDecision)
  deriving Repr, DecidableEq

/-- The exception class name seen by the generic `except Exception`
handler for each non-transient failure, or `none` for the others. -/
def nonTransientName : CallResult → Option String
  | .emptyResponse => some "ValueError"
  | .invalidJson => some "JSONDecodeError"
  | .otherException n => some n
  | _ => none

/-- The fallback decision built by the generic exception handler
(main.py lines 73-78). -/
def fallbackDecision (excName : String) : DecisionDict :=
  { match_score := 0,
    thought_process := "ERROR: Failed plan generation due to " ++ excName ++ ".",
    command := some { action := "SKIP", destination_folder := "Rejected_Candidates" } }

/-- The dictionary returned after the `for` loop (main.py lines 79-82);
note it has no `command` key. -/
def permanentFailureDecision : DecisionDict :=
  { match_score := 0,
    thought_process := "CRITICAL: API failed permanently after retries.",
    command := none }

/-- Result of `analyze_resume`: either the re-raised transient exception
or a returned decision dictionary. -/
inductive AnalyzeResult where
  | raised (k : TransientKind)
  | returned (d : DecisionDict)
  deriving Repr, DecidableEq

/-- The body of `analyze_resume`'s retry loop, `for attempt in
range(max_retries)` (main.py lines 62-82), as recursion on the number of
loop iterations left (`remaining`); `attempt` is the current loop index.
When the iterations are exhausted, the trailing `return` at lines 79-82
runs.  Returns the result together with the list of `time.sleep` delays
performed (in seconds, `2 ** attempt` each, main.py line 70). -/
def analyzeFromAux (call : Nat → CallResult) (maxRetries : Nat) :
    Nat → Nat → AnalyzeResult × List Nat
  | _attempt, 0 => (.returned permanentFailureDecision, [])
  | attempt, remaining + 1 =>
    match call attempt with
    | .transientError k =>
      if attempt < maxRetries - 1 then
        let r := analyzeFromAux call maxRetries (attempt + 1) remaining
        (r.1, 2 ^ attempt :: r.2)
      else
        (.raised k, [])
    | .emptyResponse => (.returned (fallbackDecision "ValueError"), [])
    | .invalidJson => (.returned (fallbackDecision "JSONDecodeError"), [])
    | .otherException n => (.returned (fallbackDecision n), [])
    | .success d => (.returned d.toDict, [])

/-- `analyze_resume(resume_text, job_desc, filename, max_retries)`
(main.py lines 56-82), abstracted over the remote-call oracle: the loop
starts at attempt 0 with `max_retries` iterations available.  The
prompt construction does not affect control flow and is elided; the
caller at main.py line 246 uses the default `max_retries = 3`. -/
def analyze_resume (call : Nat → CallResult) (maxRetries : Nat) :
    AnalyzeResult × List Nat :=
  analyzeFromAux call maxRetries 0 maxRetries

/-- Hexadecimal digit characters as produced by `json.dumps` in `\u00XX`
escapes (lowercase). -/
def hexDigitChar : Nat → Char
  | 0 => '0' | 1 => '1' | 2 => '2' | 3 => '3' | 4 => '4' | 5 => '5'
  | 6 => '6' | 7 => '7' | 8 => '8' | 9 => '9' | 10 => 'a' | 11 => 'b'
  | 12 => 'c' | 13 => 'd' | 14 => 'e' | 15 => 'f' | _ + 16 => '0'

/-- Numeric value of a lowercase hexadecimal digit character. -/
def hexVal (c : Char) : Option Nat :=
  if c = '0' then some 0 else if c = '1' then some 1
  else if c = '2' then some 2 else if c = '3' then some 3
  else if c = '4' then some 4 else if c = '5' then some 5
  else if c = '6' then some 6 else if c = '7' then some 7
  else if c = '8' then some 8 else if c = '9' then some 9
  else if c = 'a' then some 10 else if c = 'b' then some 11
  else if c = 'c' then some 12 else if c = 'd' then some 13
  else if c = 'e' then some 14 else if c = 'f' then some 15
  else none

/-- How `json.dumps` escapes one character inside a string: `"` and `\`
are backslash-escaped, the control characters with short forms use them,
remaining control characters use `\u00XX`; other characters pass through. -/
def escChar (c : Char) : List Char :=
  if c = '"' then ['\\', '"']
  else if c = '\\' then ['\\', '\\']
  else if c = '\x08' then ['\\', 'b']
  else if c = '\x0c' then ['\\', 'f']
  else if c = '\n' then ['\\', 'n']
  else if c = '\x0d' then ['\\', 'r']
  else if c = '\t' then ['\\', 't']
  else if c.toNat < 32 then
    ['\\', 'u', '0', '0', hexDigitChar (c.toNat / 16), hexDigitChar (c.toNat % 16)]
  else [c]

/-- `json.dumps` escaping of a whole string body. -/
def escapeList : List Char → List Char
  | [] => []
  | c :: cs => escChar c ++ escapeList cs

/-- A JSON string literal: quote, escaped body, quote. -/
def qchars (s : String) : List Char :=
  '"' :: escapeList s.data ++ ['"']

/-- One `"key": "value"` member as `json.dumps` renders it (default
separators use `": "`). -/
def memberChars (k v : String) : List Char :=
  qchars k ++ ':' :: ' ' :: qchars v

/-- The audit record written by `log_action` (main.py lines 86-92):
keys `timestamp`, `file`, `action`, `destination`, `reason`, all strings. -/
structure AuditRecord where
  timestamp : String
  file : String
  action : String
  destination : String
  reason : String
  deriving Repr, DecidableEq

/-- Body of a serialized JSON object: members joined with `", "`, then
the closing brace. -/
def membersBody : List (String × String) → List Char
  | [] => ['\x7d']
  | [(k, v)] => memberChars k v ++ ['\x7d']
  | (k, v) :: ps => memberChars k v ++ ',' :: ' ' :: membersBody ps

/-- The key/value pairs of an audit record, in the insertion order of the
`log_entry` dictionary (main.py lines 86-92). -/
def AuditRecord.pairs (r : AuditRecord) : List (String × String) :=
  [("timestamp", r.timestamp), ("file", r.file), ("action", r.action),
   ("destination", r.destination), ("reason", r.reason)]

/-- `json.dumps(log_entry)` for an audit record. -/
def jsonChars (r : AuditRecord) : List Char :=
  '\x7b' :: membersBody r.pairs

/-- The text appended to the audit file per `log_action` call:
`json.dumps(log_entry) + "\n"` (main.py line 94). -/
def auditLine (r : AuditRecord) : String :=
  ⟨jsonChars r ++ ['\n']⟩

/-- Filesystem and audit-log state.  `dirs`/`files` are the existing
directory and file paths; `auditFile` is the raw contents of
`logs/agent_audit.log` and `audit` the list of records appended to it. -/
structure FsState where
  dirs : List String
  files : List String
  audit : List AuditRecord
  auditFile : String
  deriving Repr, DecidableEq

/-- `os.path.exists`. -/
def pathExists (fs : FsState) (p : String) : Bool :=
  fs.dirs.contains p || fs.files.contains p

/-- `log_action(filename, action, folder, reason)` (main.py lines 84-94):
ensure the log directory exists (`os.makedirs(LOG_DIR, exist_ok=True)`),
then append one JSON line to the audit file.  `now` stands for
`datetime.datetime.now().isoformat()`. -/
def log_action (filename action folder reason now : String) (fs : FsState) : FsState :=
  let fs1 := if "logs" ∈ fs.dirs then fs else { fs with dirs := fs.dirs ++ ["logs"] }
  let entry : AuditRecord :=
    { timestamp := now, file := filename, action := action,
      destination := folder, reason := reason }
  { fs1 with audit := fs1.audit ++ [entry],
             auditFile := fs1.auditFile ++ auditLine entry }

/-- The OVERRIDE destination flip (main.py line 290):
`"Rejected_Candidates" if recommended == "Interview_Candidates" else
"Interview_Candidates"`. -/
def oppositeFolder (recommended : String) : String :=
  if recommended = "Interview_Candidates" then "Rejected_Candidates"
  else "Interview_Candidates"

/-- `final_dest_folder` after the user-action branch of
`execute_file_move` (main.py lines 286-290). -/
def finalFolder (recommended user_action : String) : String :=
  if user_action = "OVERRIDE" then oppositeFolder recommended else recommended

/-- `log_reason` after the user-action branch of `execute_file_move`
(main.py lines 287-291). -/
def finalReason (recommended thought user_action : String) : String :=
  if user_action = "OVERRIDE" then
    "USER OVERRIDE: Agent recommended " ++ recommended ++ ", user moved to "
      ++ oppositeFolder recommended ++ ". Agent Reason: " ++ thought
  else thought

/-- The `log_message` output of the user-action branch of
`execute_file_move` (main.py lines 292-294). -/
def authMessage (recommended user_action : String) : List String :=
  if user_action = "OVERRIDE" then
    ["USER OVERRIDE! Moving to " ++ oppositeFolder recommended ++ "."]
  else if user_action = "APPROVE" then
    ["APPROVED: Moving to " ++ recommended ++ "."]
  else []

/-- `Recruiter.execute_file_move(decision, filename, user_action)`
(main.py lines 281-308).  `cdir` is `self.candidates_dir`; `thought` and
`cmd` are `decision['thought_process']` and `decision['command']` (whose
presence the caller established at line 248).  `msgs` is the visible
log.  `shutil.move` succeeds iff the source path is an existing file;
on failure the error is reported and nothing else happens (the
`except` at lines 307-308). -/
def execute_file_move (cdir thought : String) (cmd : Command)
    (filename user_action now : String) (fs : FsState) (msgs : List String) :
    FsState × List String :=
  let base_dir := if dirname cdir = "" then "." else dirname cdir
  let final_dest_folder := finalFolder cmd.destination_folder user_action
  let log_reason := finalReason cmd.destination_folder thought user_action
  let msgs1 := msgs ++ authMessage cmd.destination_folder user_action
  let source_path := pathJoin cdir filename
  let final_dest_dir_path := pathJoin base_dir final_dest_folder
  let final_dest_path := pathJoin final_dest_dir_path filename
  let fs1 := if pathExists fs final_dest_dir_path then fs
             else { fs with dirs := fs.dirs ++ [final_dest_dir_path] }
  if source_path ∈ fs1.files then
    let fs2 := { fs1 with files :=
      ((fs1.files.filter (fun p => p ≠ source_path)).filter
        (fun p => p ≠ final_dest_path)) ++ [final_dest_path] }
    (log_action filename cmd.action final_dest_folder log_reason now fs2,
     msgs1 ++ ["File moved successfully to " ++ final_dest_folder ++ "."])
  else
    (fs1, msgs1 ++ ["System Error Moving File: " ++ source_path])

/-- Inverse of the short-form escapes of `escChar`. -/
def unescChar (e : Char) : Option Char :=
  if e = '"' then some '"'
  else if e = '\\' then some '\\'
  else if e = '/' then some '/'
  else if e = 'b' then some '\x08'
  else if e = 'f' then some '\x0c'
  else if e = 'n' then some '\n'
  else if e = 'r' then some '\x0d'
  else if e = 't' then some '\t'
  else none

/-- Parser for the body of a JSON string literal (after the opening
quote), undoing `escChar`.  Returns the decoded characters and the input
remaining after the closing quote.  Verification-side definition used to
state that audit lines parse back. -/
def parseStrAux : List Char → Option (List Char × List Char)
  | [] => none
  | c :: rest =>
    if c = '"' then some ([], rest)
    else if c = '\\' then
      match rest with
      | 'u' :: h1 :: h2 :: h3 :: h4 :: rest2 =>
        match hexVal h1, hexVal h2, hexVal h3, hexVal h4, parseStrAux rest2 with
        | some a, some b, some c2, some d, some (s, r) =>
          some (Char.ofNat (((a * 16 + b) * 16 + c2) * 16 + d) :: s, r)
        | _, _, _, _, _ => none
      | e :: rest2 =>
        match unescChar e, parseStrAux rest2 with
        | some c2, some (s, r) => some (c2 :: s, r)
        | _, _ => none
      | [] => none
    else
      match parseStrAux rest with
      | some (s, r) => some (c :: s, r)
      | none => none

/-- Parse a JSON string literal (expects the opening quote). -/
def parseJsonString (l : List Char) : Option (List Char × List Char) :=
  match l with
  | '"' :: rest => parseStrAux rest
  | _ => none

/-- Parse the members of a flat string-valued JSON object, after the
opening brace, up to and including the closing brace.  `fuel` bounds the
number of members. -/
def parseMembers : Nat → List Char → Option (List (String × String) × List Char)
  | 0, _ => none
  | fuel + 1, l =>
    match parseJsonString l with
    | none => none
    | some (k, l1) =>
      match l1 with
      | ':' :: ' ' :: l2 =>
        match parseJsonString l2 with
        | none => none
        | some (v, l3) =>
          match l3 with
          | ',' :: ' ' :: l4 =>
            match parseMembers fuel l4 with
            | some (ms, l5) => some ((⟨k⟩, ⟨v⟩) :: ms, l5)
            | none => none
          | '\x7d' :: l4 => some ([(⟨k⟩, ⟨v⟩)], l4)
          | _ => none
      | _ => none

/-- Parse one audit-log line (without its trailing newline) as a flat
string-valued JSON object, returning its key/value pairs in order. -/
def parseAuditLine (s : String) : Option (List (String × String)) :=
  match s.data with
  | '\x7b' :: cs =>
    match parseMembers (cs.length + 1) cs with
    | some (ms, []) => some ms
    | _ => none
  | _ => none

/-- The mutable state of the `Recruiter` app that the processing loop
touches (main.py lines 170-174, 193-276): the filesystem, the visible
log, the configured paths, the batch bookkeeping, plus two
instrumentation counters — how many times `analyze_resume` was invoked
and for which files the `AuthorizationScreen` was pushed. -/
structure AppState where
  fs : FsState
  messages : List String
  candidates_dir : String
  job_desc_path : String
  job_desc : String
  files_to_process : List String
  num_processed : Nat
  analyzeCalls : Nat
  gateShown : List String
  deriving Repr, DecidableEq

/-- External inputs of one iteration of `process_resumes`: the result of
reading the resume file (`none` = the `open`/`read` raised), the
remote-call oracle passed to `analyze_resume`, the button the human
presses on the authorization screen, and the wall-clock timestamp. -/
structure StepEnv where
  readResult : Option String
  call : Nat → CallResult
  humanAction : String
  now : String

/-- Outcome of one iteration of the `while` loop in `process_resumes`:
continue with the next file, an exception escaped the loop (the
re-raised transient failure, or a `KeyError` on a decision without
`command`), or the loop guard failed (batch finished). -/
inductive StepOutcome where
  | next (s : AppState)
  | raised (s : AppState)
  | finished (s : AppState)
  deriving Repr

/-- One iteration of `Recruiter.process_resumes` (main.py lines
232-276).  Mirrors the source order: read the resume (read error skips
the file), call `analyze_resume` with the default cap 3 (an escaping
transient exception aborts the loop), handle `SKIP` decisions without
any authorization screen, otherwise push the authorization screen,
await the human's button, and run `execute_file_move`. -/
def processStep (env : StepEnv) (s : AppState) : StepOutcome :=
  if h : s.num_processed < s.files_to_process.length then
    let filename := s.files_to_process.get ⟨s.num_processed, h⟩
    let s1 := { s with messages := s.messages ++
      ["--- Processing File: " ++ filename ++ " ---"] }
    match env.readResult with
    | none =>
      .next { s1 with
        messages := s1.messages ++ ["Read Error: Skipping " ++ filename],
        num_processed := s1.num_processed + 1 }
    | some _content =>
      let s2 := { s1 with
        messages := s1.messages ++ ["Thinking... Calling Gemini API."],
        analyzeCalls := s1.analyzeCalls + 1 }
      match (analyze_resume env.call 3).1 with
      | .raised _k => .raised s2
      | .returned d =>
        match d.command with
        | none => .raised s2
        | some cmd =>
          if cmd.action = "SKIP" then
            let s3 := { s2 with messages := s2.messages ++
              ["API ERROR: Skipped " ++ filename ++ ". Reason: " ++ d.thought_process] }
            .next { s3 with
              fs := log_action filename "SKIP" "N/A" d.thought_process env.now s3.fs,
              num_processed := s3.num_processed + 1 }
          else
            let s4 := { s2 with
              messages := s2.messages ++
                ["Agent recommends: " ++ cmd.destination_folder ++ " - Reason: "
                  ++ d.thought_process],
              gateShown := s2.gateShown ++ [filename] }
            let action := env.humanAction
            let s5 := { s4 with messages := s4.messages ++
              ["Decision Recommendation: " ++ cmd.destination_folder
                ++ " | User Action: " ++ action] }
            let moved := execute_file_move s5.candidates_dir d.thought_process cmd
              filename action env.now s5.fs s5.messages
            .next { s5 with fs := moved.1, messages := moved.2,
                            num_processed := s5.num_processed + 1 }
  else .finished s

/-- `os.listdir` restricted to direct children: the entry name when
`path` lies directly inside `dir`. -/
def directChild (dir path : String) : Option String :=
  let prefChars := if dir.data.getLast? = some '/' then dir.data else dir.data ++ ['/']
  if prefChars.isPrefixOf path.data then
    let rest := path.data.drop prefChars.length
    if rest ≠ [] ∧ ¬ rest.contains '/' then some ⟨rest⟩ else none
  else none

/-- `os.listdir` over the modelled filesystem (file entries only; the
caller filters for `.txt` anyway). -/
def listdir (fs : FsState) (dir : String) : List String :=
  fs.files.filterMap (directChild dir)

/-- Outcome of `Recruiter.start_processing`: either the method returned
without creating the processing task, or it created the task with the
batch set up. -/
inductive StartOutcome where
  | rejected (s : AppState)
  | started (s : AppState)
  deriving Repr

/-- `Recruiter.start_processing` (main.py lines 193-220).  `jd_path` and
`cand_dir` are the two input-widget values; `readFile` models
`open(path).read()` (`none` = the read raised).  The path-existence
check at lines 197-199 runs before anything else; on failure the method
logs an error and returns without starting the batch. -/
def start_processing (readFile : String → Option String)
    (jd_path cand_dir : String) (s : AppState) : StartOutcome :=
  let s0 := { s with job_desc_path := jd_path, candidates_dir := cand_dir }
  if ¬ pathExists s0.fs cand_dir ∨ ¬ pathExists s0.fs jd_path then
    .rejected { s0 with messages := s0.messages ++
      ["ERROR: One or both paths are invalid. Check paths."] }
  else
    match readFile jd_path with
    | none =>
      .rejected { s0 with messages := s0.messages ++ ["CRITICAL READ ERROR"] }
    | some jd =>
      let files := (listdir s0.fs cand_dir).filter (fun f => f.endsWith ".txt")
      let s1 := { s0 with job_desc := jd, files_to_process := files,
                          num_processed := 0 }
      if files.isEmpty then
        .rejected { s1 with messages := s1.messages ++
          ["No .txt resume files found in inbox."] }
      else
        .started { s1 with messages := s1.messages ++ ["-- Starting Batch --"] }

theorem analyzeFromAux_command (call : Nat → CallResult) (maxRetries : Nat) :
    ∀ remaining attempt, attempt + remaining = maxRetries → 1 ≤ remaining →
    (∃ k ds, analyzeFromAux call maxRetries attempt remaining = (.raised k, ds))
    ∨ (∃ d ds, analyzeFromAux call maxRetries attempt remaining = (.returned d, ds)
        ∧ d.command.isSome = true) := by
  intro remaining
  induction remaining with
  | zero => intro attempt _ hr; omega
  | succ m ih =>
    intro attempt hinv _
    cases hc : call attempt with
    | transientError k =>
      by_cases hlt : attempt < maxRetries - 1
      · have hm : 1 ≤ m := by omega
        have hinv2 : (attempt + 1) + m = maxRetries := by omega
        rcases ih (attempt + 1) hinv2 hm with ⟨k2, ds, hres⟩ | ⟨d, ds, hres, hcmd⟩
        · left
          exact ⟨k2, 2 ^ attempt :: ds, by simp [analyzeFromAux, hc, hlt, hres]⟩
        · right
          exact ⟨d, 2 ^ attempt :: ds, by simp [analyzeFromAux, hc, hlt, hres], hcmd⟩
      · left
        exact ⟨k, [], by simp [analyzeFromAux, hc, hlt]⟩
    | emptyResponse =>
      right; exact ⟨fallbackDecision "ValueError", [], by simp [analyzeFromAux, hc], rfl⟩
    | invalidJson =>
      right; exact ⟨fallbackDecision "JSONDecodeError", [], by simp [analyzeFromAux, hc], rfl⟩
    | otherException n =>
      right; exact ⟨fallbackDecision n, [], by simp [analyzeFromAux, hc], rfl⟩
    | success d =>
      right; exact ⟨d.toDict, [], by simp [analyzeFromAux, hc], rfl⟩

/-- C10: for every oracle and any positive retry cap (the program always
uses the default 3), `analyze_resume` either re-raises a transient
exception or returns a dictionary whose `command` key is present, so the
trailing return without `command` is unreachable and the consumer's
`decision['command']['action']` access cannot fail on a returned value. -/
theorem analyze_resume_command_present (call : Nat → CallResult) (maxRetries : Nat)
    (h : 1 ≤ maxRetries) :
    (∃ k ds, analyze_resume call maxRetries = (.raised k, ds))
    ∨ (∃ d ds, analyze_resume call maxRetries = (.returned d, ds)
        ∧ d.command.isSome = true) :=
  analyzeFromAux_command call maxRetries maxRetries 0 (by omega) h

/-- C10 witness at the default cap 3 with an always-failing-parse oracle. -/
theorem analyze_resume_command_present_witness :
    (∃ k ds, analyze_resume (fun _ => .invalidJson) 3 = (.raised k, ds))
    ∨ (∃ d ds, analyze_resume (fun _ => .invalidJson) 3 = (.returned d, ds)
        ∧ d.command.isSome = true) :=
  analyze_resume_command_present (fun _ => .invalidJson) 3 (by decide)

/-- C4: on transient remote failures (rate-limit / service-unavailable)
`analyze_resume` retries up to the fixed cap of 3 total attempts, sleeping
`2 ^ attempt` seconds after each failed attempt starting at attempt 0
(so delays `[1, 2]`); if fewer than 3 attempts fail transiently and the
next attempt succeeds, the parsed decision is returned with no
escalation; if all 3 attempts fail transiently, the transient exception
of the last attempt is re-raised to the caller instead of a fallback. -/
theorem analyze_resume_retry_policy (call : Nat → CallResult) :
    ((∀ i, i < 3 → ∃ k, call i = .transientError k) →
      ∃ k2, call 2 = .transientError k2 ∧
        analyze_resume call 3 = (.raised k2, [1, 2]))
    ∧ (∀ n d, n < 3 → (∀ i, i < n → ∃ k, call i = .transientError k) →
        call n = .success d →
        analyze_resume call 3 =
          (.returned d.toDict, (List.range n).map (fun i => 2 ^ i))) := by
  constructor
  · intro hall
    obtain ⟨k0, h0⟩ := hall 0 (by omega)
    obtain ⟨k1, h1⟩ := hall 1 (by omega)
    obtain ⟨k2, h2⟩ := hall 2 (by omega)
    refine ⟨k2, h2, ?_⟩
    simp [analyze_resume, analyzeFromAux, h0, h1, h2]
  · intro n d hn hpre hsucc
    interval_cases n
    · simp [analyze_resume, analyzeFromAux, hsucc]
    · obtain ⟨k0, h0⟩ := hpre 0 (by omega)
      simp [analyze_resume, analyzeFromAux, h0, hsucc, List.range_succ]
    · obtain ⟨k0, h0⟩ := hpre 0 (by omega)
      obtain ⟨k1, h1⟩ := hpre 1 (by omega)
      simp [analyze_resume, analyzeFromAux, h0, h1, hsucc, List.range_succ]

/-- C4 witness: two attempts fail with ServiceUnavailable and the third
succeeds, returning the parsed decision after sleeping 1 s then 2 s; an
oracle that always raises ResourceExhausted ends with the exception
re-raised after the same two sleeps. -/
theorem analyze_resume_retry_policy_witness :
    (analyze_resume (fun i => if i < 2 then .transientError .serviceUnavailable
        else .success ⟨85, "fit", ⟨"MOVE_FILE", "Interview_Candidates"⟩⟩) 3
      = (.returned ⟨85, "fit", some ⟨"MOVE_FILE", "Interview_Candidates"⟩⟩, [1, 2]))
    ∧ (analyze_resume (fun _ => .transientError .resourceExhausted) 3
      = (.raised .resourceExhausted, [1, 2])) := by
  constructor
  · have h := (analyze_resume_retry_policy (fun i => if i < 2 then .transientError .serviceUnavailable
        else .success ⟨85, "fit", ⟨"MOVE_FILE", "Interview_Candidates"⟩⟩)).2 2
        ⟨85, "fit", ⟨"MOVE_FILE", "Interview_Candidates"⟩⟩ (by omega)
        (fun i hi => ⟨.serviceUnavailable, by interval_cases i <;> rfl⟩) rfl
    simpa [SchemaDecision.toDict] using h
  · obtain ⟨k2, hk2, hres⟩ := (analyze_resume_retry_policy
      (fun _ => .transientError .resourceExhausted)).1
      (fun i _ => ⟨.resourceExhausted, rfl⟩)
    have : k2 = .resourceExhausted := by
      have := hk2.symm; injection this
    rw [this] at hres
    simpa using hres


theorem log_action_files (filename action folder reason now : String) (fs : FsState) :
    (log_action filename action folder reason now fs).files = fs.files := by
  by_cases h : "logs" ∈ fs.dirs <;> simp [log_action, h]

theorem log_action_audit (filename action folder reason now : String) (fs : FsState) :
    (log_action filename action folder reason now fs).audit = fs.audit ++
      [{ timestamp := now, file := filename, action := action,
         destination := folder, reason := reason }] := by
  by_cases h : "logs" ∈ fs.dirs <;> simp [log_action, h]

theorem log_action_auditFile (filename action folder reason now : String) (fs : FsState) :
    (log_action filename action folder reason now fs).auditFile = fs.auditFile ++
      auditLine { timestamp := now, file := filename, action := action,
                  destination := folder, reason := reason } := by
  by_cases h : "logs" ∈ fs.dirs <;> simp [log_action, h]

theorem processStep_skip_lemma (env : StepEnv) (s : AppState) (content : String)
    (d : DecisionDict) (cmd : Command)
    (hslot : s.num_processed < s.files_to_process.length)
    (hread : env.readResult = some content)
    (hdec : (analyze_resume env.call 3).1 = .returned d)
    (hcmd : d.command = some cmd)
    (hact : cmd.action = "SKIP") :
    processStep env s = .next
      { s with
        messages := s.messages
          ++ ["--- Processing File: " ++ s.files_to_process.get ⟨s.num_processed, hslot⟩ ++ " ---"]
          ++ ["Thinking... Calling Gemini API."]
          ++ ["API ERROR: Skipped " ++ s.files_to_process.get ⟨s.num_processed, hslot⟩
              ++ ". Reason: " ++ d.thought_process],
        analyzeCalls := s.analyzeCalls + 1,
        fs := log_action (s.files_to_process.get ⟨s.num_processed, hslot⟩) "SKIP" "N/A"
                d.thought_process env.now s.fs,
        num_processed := s.num_processed + 1 } := by
  simp only [processStep, dif_pos hslot, hread, hdec, hcmd, hact]
  rfl

/-- C3: for every decision whose `command.action` is SKIP, the loop
iteration performs no filesystem move (the file list is unchanged, so
the resume stays at its source path), never pushes the authorization
screen, appends the optional SKIP audit entry with destination N/A, and
proceeds to the next file. -/
theorem processStep_skip_no_move (env : StepEnv) (s : AppState) (content : String)
    (d : DecisionDict) (cmd : Command)
    (hslot : s.num_processed < s.files_to_process.length)
    (hread : env.readResult = some content)
    (hdec : (analyze_resume env.call 3).1 = .returned d)
    (hcmd : d.command = some cmd)
    (hact : cmd.action = "SKIP") :
    ∃ s2, processStep env s = .next s2
      ∧ s2.fs.files = s.fs.files
      ∧ s2.gateShown = s.gateShown
      ∧ s2.num_processed = s.num_processed + 1
      ∧ s2.fs.audit = s.fs.audit ++
          [{ timestamp := env.now,
             file := s.files_to_process.get ⟨s.num_processed, hslot⟩,
             action := "SKIP", destination := "N/A", reason := d.thought_process }] := by
  refine ⟨_, processStep_skip_lemma env s content d cmd hslot hread hdec hcmd hact,
    ?_, rfl, rfl, ?_⟩
  · exact log_action_files _ _ _ _ _ _
  · exact log_action_audit _ _ _ _ _ _

/-- C3 witness: a SKIP decision on a one-file batch leaves the file in
the inbox, shows no authorization screen, and advances the counter. -/
theorem processStep_skip_no_move_witness :
    ∃ s2, processStep
      { readResult := some "resume text",
        call := fun _ => .success ⟨0, "weird", ⟨"SKIP", "Rejected_Candidates"⟩⟩,
        humanAction := "APPROVE", now := "T0" }
      { fs := { dirs := ["./data", "./data/inbox"],
                files := ["./data/inbox/a.txt"], audit := [], auditFile := "" },
        messages := [], candidates_dir := "./data/inbox",
        job_desc_path := "./data/job_description.txt", job_desc := "jd",
        files_to_process := ["a.txt"], num_processed := 0,
        analyzeCalls := 0, gateShown := [] } = .next s2
      ∧ s2.fs.files = ["./data/inbox/a.txt"]
      ∧ s2.gateShown = []
      ∧ s2.num_processed = 1
      ∧ s2.fs.audit = [{ timestamp := "T0", file := "a.txt", action := "SKIP",
                         destination := "N/A", reason := "weird" }] := by
  obtain ⟨s2, h1, h2, h3, h4, h5⟩ := processStep_skip_no_move
    { readResult := some "resume text",
      call := fun _ => .success ⟨0, "weird", ⟨"SKIP", "Rejected_Candidates"⟩⟩,
      humanAction := "APPROVE", now := "T0" }
    { fs := { dirs := ["./data", "./data/inbox"],
              files := ["./data/inbox/a.txt"], audit := [], auditFile := "" },
      messages := [], candidates_dir := "./data/inbox",
      job_desc_path := "./data/job_description.txt", job_desc := "jd",
      files_to_process := ["a.txt"], num_processed := 0,
      analyzeCalls := 0, gateShown := [] }
    "resume text" ⟨0, "weird", some ⟨"SKIP", "Rejected_Candidates"⟩⟩
    ⟨"SKIP", "Rejected_Candidates"⟩ (by decide) rfl rfl rfl rfl
  exact ⟨s2, h1, h2, h3, h4, h5⟩

/-- C5: on any non-transient failure of the remote call (empty or blocked
response raising ValueError, a JSON parse failure, or any other
exception) `analyze_resume` does not raise: it returns the fallback
decision with match_score 0, action SKIP, destination_folder
Rejected_Candidates and a thought_process naming the exception class, and
the processing loop then continues to the next file. -/
theorem analyze_resume_nontransient_fallback (call : Nat → CallResult)
    (n : Nat) (name : String) (hn : n < 3)
    (hpre : ∀ i, i < n → ∃ k, call i = .transientError k)
    (hfail : nonTransientName (call n) = some name) :
    analyze_resume call 3 =
      (.returned (fallbackDecision name), (List.range n).map (fun i => 2 ^ i))
    ∧ (fallbackDecision name).match_score = 0
    ∧ (fallbackDecision name).command =
        some { action := "SKIP", destination_folder := "Rejected_Candidates" }
    ∧ (fallbackDecision name).thought_process =
        "ERROR: Failed plan generation due to " ++ name ++ "."
    ∧ (∀ env s content, env.call = call → env.readResult = some content →
        s.num_processed < s.files_to_process.length →
        ∃ s2, processStep env s = .next s2
          ∧ s2.num_processed = s.num_processed + 1) := by
  have hres : analyze_resume call 3 =
      (.returned (fallbackDecision name), (List.range n).map (fun i => 2 ^ i)) := by
    interval_cases n
    · cases hc : call 0 with
      | transientError k => rw [hc] at hfail; simp [nonTransientName] at hfail
      | emptyResponse =>
        rw [hc] at hfail; simp [nonTransientName] at hfail
        simp [analyze_resume, analyzeFromAux, hc, hfail]
      | invalidJson =>
        rw [hc] at hfail; simp [nonTransientName] at hfail
        simp [analyze_resume, analyzeFromAux, hc, hfail]
      | otherException m =>
        rw [hc] at hfail; simp [nonTransientName] at hfail
        simp [analyze_resume, analyzeFromAux, hc, hfail]
      | success d => rw [hc] at hfail; simp [nonTransientName] at hfail
    · obtain ⟨k0, h0⟩ := hpre 0 (by omega)
      cases hc : call 1 with
      | transientError k => rw [hc] at hfail; simp [nonTransientName] at hfail
      | emptyResponse =>
        rw [hc] at hfail; simp [nonTransientName] at hfail
        simp [analyze_resume, analyzeFromAux, h0, hc, hfail, List.range_succ]
      | invalidJson =>
        rw [hc] at hfail; simp [nonTransientName] at hfail
        simp [analyze_resume, analyzeFromAux, h0, hc, hfail, List.range_succ]
      | otherException m =>
        rw [hc] at hfail; simp [nonTransientName] at hfail
        simp [analyze_resume, analyzeFromAux, h0, hc, hfail, List.range_succ]
      | success d => rw [hc] at hfail; simp [nonTransientName] at hfail
    · obtain ⟨k0, h0⟩ := hpre 0 (by omega)
      obtain ⟨k1, h1⟩ := hpre 1 (by omega)
      cases hc : call 2 with
      | transientError k => rw [hc] at hfail; simp [nonTransientName] at hfail
      | emptyResponse =>
        rw [hc] at hfail; simp [nonTransientName] at hfail
        simp [analyze_resume, analyzeFromAux, h0, h1, hc, hfail, List.range_succ]
      | invalidJson =>
        rw [hc] at hfail; simp [nonTransientName] at hfail
        simp [analyze_resume, analyzeFromAux, h0, h1, hc, hfail, List.range_succ]
      | otherException m =>
        rw [hc] at hfail; simp [nonTransientName] at hfail
        simp [analyze_resume, analyzeFromAux, h0, h1, hc, hfail, List.range_succ]
      | success d => rw [hc] at hfail; simp [nonTransientName] at hfail
  refine ⟨hres, rfl, rfl, rfl, ?_⟩
  intro env s content hcall hread hslot
  have hdec : (analyze_resume env.call 3).1 = .returned (fallbackDecision name) := by
    rw [hcall, hres]
  have hx := processStep_skip_lemma env s content (fallbackDecision name)
    { action := "SKIP", destination_folder := "Rejected_Candidates" }
    hslot hread hdec rfl rfl
  exact ⟨_, hx, rfl⟩

theorem execute_file_move_success (cdir thought : String) (cmd : Command)
    (filename user_action now : String) (fs : FsState) (msgs : List String)
    (hsrc : pathJoin cdir filename ∈ fs.files) :
    ∃ fs1 : FsState,
      fs1.files = fs.files ∧ fs1.audit = fs.audit ∧ fs1.auditFile = fs.auditFile ∧
      execute_file_move cdir thought cmd filename user_action now fs msgs =
        (log_action filename cmd.action (finalFolder cmd.destination_folder user_action)
           (finalReason cmd.destination_folder thought user_action) now
           { fs1 with files :=
              ((fs1.files.filter (fun p => p ≠ pathJoin cdir filename)).filter
                (fun p => p ≠ pathJoin (pathJoin
                  (if dirname cdir = "" then "." else dirname cdir)
                  (finalFolder cmd.destination_folder user_action)) filename))
              ++ [pathJoin (pathJoin
                  (if dirname cdir = "" then "." else dirname cdir)
                  (finalFolder cmd.destination_folder user_action)) filename] },
         msgs ++ authMessage cmd.destination_folder user_action
           ++ ["File moved successfully to "
               ++ finalFolder cmd.destination_folder user_action ++ "."]) := by
  by_cases hex : pathExists fs (pathJoin
      (if dirname cdir = "" then "." else dirname cdir)
      (finalFolder cmd.destination_folder user_action)) = true
  · refine ⟨fs, rfl, rfl, rfl, ?_⟩
    simp [execute_file_move, hex, hsrc]
  · refine ⟨{ fs with dirs := fs.dirs ++ [pathJoin
      (if dirname cdir = "" then "." else dirname cdir)
      (finalFolder cmd.destination_folder user_action)] }, rfl, rfl, rfl, ?_⟩
    simp [execute_file_move, hex, hsrc]

theorem execute_file_move_failure (cdir thought : String) (cmd : Command)
    (filename user_action now : String) (fs : FsState) (msgs : List String)
    (hsrc : pathJoin cdir filename ∉ fs.files) :
    ∃ fs1 : FsState,
      fs1.files = fs.files ∧ fs1.audit = fs.audit ∧ fs1.auditFile = fs.auditFile ∧
      execute_file_move cdir thought cmd filename user_action now fs msgs =
        (fs1,
         msgs ++ authMessage cmd.destination_folder user_action
           ++ ["System Error Moving File: " ++ pathJoin cdir filename]) := by
  by_cases hex : pathExists fs (pathJoin
      (if dirname cdir = "" then "." else dirname cdir)
      (finalFolder cmd.destination_folder user_action)) = true
  · refine ⟨fs, rfl, rfl, rfl, ?_⟩
    simp [execute_file_move, hex, hsrc]
  · refine ⟨{ fs with dirs := fs.dirs ++ [pathJoin
      (if dirname cdir = "" then "." else dirname cdir)
      (finalFolder cmd.destination_folder user_action)] }, rfl, rfl, rfl, ?_⟩
    simp [execute_file_move, hex, hsrc]

/-- C1: for a MOVE_FILE decision answered with OVERRIDE,
`execute_file_move` moves the file into exactly the opposite folder from
the recommended one (Interview_Candidates swapped with
Rejected_Candidates, never a third folder): the file appears under the
flipped folder and leaves its source path, and the audit record's reason
contains the USER OVERRIDE annotation together with the agent's original
rationale. -/
theorem execute_file_move_override_opposite (cdir thought : String) (cmd : Command)
    (filename now : String) (fs : FsState) (msgs : List String)
    (henum : cmd.destination_folder = "Interview_Candidates"
      ∨ cmd.destination_folder = "Rejected_Candidates")
    (hsrc : pathJoin cdir filename ∈ fs.files) :
    ∃ fs2 msgs2,
      execute_file_move cdir thought cmd filename "OVERRIDE" now fs msgs = (fs2, msgs2)
      ∧ oppositeFolder cmd.destination_folder ≠ cmd.destination_folder
      ∧ (oppositeFolder cmd.destination_folder = "Interview_Candidates"
          ∨ oppositeFolder cmd.destination_folder = "Rejected_Candidates")
      ∧ pathJoin (pathJoin (if dirname cdir = "" then "." else dirname cdir)
            (oppositeFolder cmd.destination_folder)) filename ∈ fs2.files
      ∧ (pathJoin cdir filename =
            pathJoin (pathJoin (if dirname cdir = "" then "." else dirname cdir)
              (oppositeFolder cmd.destination_folder)) filename
          ∨ pathJoin cdir filename ∉ fs2.files)
      ∧ fs2.audit = fs.audit ++
          [{ timestamp := now, file := filename, action := cmd.action,
             destination := oppositeFolder cmd.destination_folder,
             reason := "USER OVERRIDE: Agent recommended " ++ cmd.destination_folder
               ++ ", user moved to " ++ oppositeFolder cmd.destination_folder
               ++ ". Agent Reason: " ++ thought }]
      ∧ (∃ t, "USER OVERRIDE: Agent recommended " ++ cmd.destination_folder
               ++ ", user moved to " ++ oppositeFolder cmd.destination_folder
               ++ ". Agent Reason: " ++ thought = "USER OVERRIDE" ++ t)
      ∧ (∃ p, "USER OVERRIDE: Agent recommended " ++ cmd.destination_folder
               ++ ", user moved to " ++ oppositeFolder cmd.destination_folder
               ++ ". Agent Reason: " ++ thought = p ++ thought) := by
  obtain ⟨fs1, hfiles, haudit, _, heq⟩ :=
    execute_file_move_success cdir thought cmd filename "OVERRIDE" now fs msgs hsrc
  have hff : finalFolder cmd.destination_folder "OVERRIDE"
      = oppositeFolder cmd.destination_folder := by simp [finalFolder]
  have hfr : finalReason cmd.destination_folder thought "OVERRIDE"
      = "USER OVERRIDE: Agent recommended " ++ cmd.destination_folder
        ++ ", user moved to " ++ oppositeFolder cmd.destination_folder
        ++ ". Agent Reason: " ++ thought := by simp [finalReason]
  rw [hff, hfr] at heq
  refine ⟨_, _, heq, ?_, ?_, ?_, ?_, ?_, ?_, ?_⟩
  · rcases henum with h | h <;> rw [h] <;> decide
  · rcases henum with h | h <;> rw [h] <;> simp [oppositeFolder]
  · rw [log_action_files]
    simp
  · by_cases hsd : pathJoin cdir filename =
      pathJoin (pathJoin (if dirname cdir = "" then "." else dirname cdir)
        (oppositeFolder cmd.destination_folder)) filename
    · exact Or.inl hsd
    · refine Or.inr ?_
      rw [log_action_files]
      simp [List.mem_filter, hsd]
  · rw [log_action_audit]
    simp [haudit]
  · have hAU : "USER OVERRIDE: Agent recommended "
        = "USER OVERRIDE" ++ ": Agent recommended " := by decide
    exact ⟨": Agent recommended " ++ cmd.destination_folder ++ ", user moved to "
      ++ oppositeFolder cmd.destination_folder ++ ". Agent Reason: " ++ thought,
      by rw [hAU]; simp only [String.append_assoc]⟩
  · exact ⟨"USER OVERRIDE: Agent recommended " ++ cmd.destination_folder
      ++ ", user moved to " ++ oppositeFolder cmd.destination_folder
      ++ ". Agent Reason: ", rfl⟩

theorem hexVal_hexDigitChar : ∀ n, n < 16 → hexVal (hexDigitChar n) = some n := by decide

theorem parseStrAux_escape (s : List Char) : ∀ rest,
    parseStrAux (escapeList s ++ '"' :: rest) = some (s, rest) := by
  induction s with
  | nil =>
    intro rest
    show parseStrAux ('"' :: rest) = _
    rw [parseStrAux.eq_def]
    simp
  | cons c cs ih =>
    intro rest
    show parseStrAux ((escChar c ++ escapeList cs) ++ '"' :: rest) = _
    rw [List.append_assoc]
    by_cases h1 : c = '"'
    · subst h1
      simp only [escChar, if_pos rfl, List.cons_append, List.nil_append]
      rw [parseStrAux.eq_def]
      simp [unescChar, ih]
    by_cases h2 : c = '\\'
    · subst h2
      simp only [escChar, reduceIte, List.cons_append, List.nil_append]
      rw [parseStrAux.eq_def]
      simp [unescChar, ih]
    by_cases h3 : c = '\x08'
    · subst h3
      simp only [escChar, reduceIte, List.cons_append, List.nil_append]
      rw [parseStrAux.eq_def]
      simp [unescChar, ih]
    by_cases h4 : c = '\x0c'
    · subst h4
      simp only [escChar, reduceIte, List.cons_append, List.nil_append]
      rw [parseStrAux.eq_def]
      simp [unescChar, ih]
    by_cases h5 : c = '\n'
    · subst h5
      simp only [escChar, reduceIte, List.cons_append, List.nil_append]
      rw [parseStrAux.eq_def]
      simp [unescChar, ih]
    by_cases h6 : c = '\x0d'
    · subst h6
      simp only [escChar, reduceIte, List.cons_append, List.nil_append]
      rw [parseStrAux.eq_def]
      simp [unescChar, ih]
    by_cases h7 : c = '\t'
    · subst h7
      simp only [escChar, reduceIte, List.cons_append, List.nil_append]
      rw [parseStrAux.eq_def]
      simp [unescChar, ih]
    by_cases hctl : c.toNat < 32
    · have hdiv : c.toNat / 16 < 16 := by omega
      have hmod : c.toNat % 16 < 16 := Nat.mod_lt _ (by norm_num)
      have hv0 : hexVal '0' = some 0 := by decide
      simp only [escChar, h1, h2, h3, h4, h5, h6, h7, hctl, if_neg, if_pos,
        ite_false, ite_true, List.cons_append, List.nil_append]
      rw [parseStrAux.eq_def]
      simp [hv0, hexVal_hexDigitChar _ hdiv, hexVal_hexDigitChar _ hmod, ih]
      have harith : c.toNat / 16 * 16 + c.toNat % 16 = c.toNat := by omega
      rw [harith, Char.ofNat_toNat]
    · simp only [escChar, h1, h2, h3, h4, h5, h6, h7, hctl, if_neg, if_pos,
        ite_false, ite_true, List.cons_append, List.nil_append]
      rw [parseStrAux.eq_def]
      simp [h1, h2, ih]

theorem parseJsonString_q (s : String) (tail : List Char) :
    parseJsonString (qchars s ++ tail) = some (s.data, tail) := by
  simp [parseJsonString, qchars, List.append_assoc, parseStrAux_escape]

theorem parseMembers_body : ∀ (ps : List (String × String)) (fuel : Nat),
    ps ≠ [] → ps.length ≤ fuel →
    parseMembers fuel (membersBody ps) = some (ps, []) := by
  intro ps
  induction ps with
  | nil => intro fuel h _; exact absurd rfl h
  | cons kv ps ih =>
    intro fuel _ hlen
    obtain ⟨k, v⟩ := kv
    cases fuel with
    | zero => simp at hlen
    | succ f =>
      cases ps with
      | nil =>
        show parseMembers (f + 1) (memberChars k v ++ ['\x7d']) = _
        simp [parseMembers, memberChars, List.append_assoc, parseJsonString_q]
      | cons kv2 ps2 =>
        show parseMembers (f + 1)
          (memberChars k v ++ ',' :: ' ' :: membersBody (kv2 :: ps2)) = _
        have hrec := ih f (by simp) (by simp at hlen ⊢; omega)
        simp [parseMembers, memberChars, List.append_assoc, parseJsonString_q, hrec]

theorem hexDigitChar_ne_newline : ∀ n, hexDigitChar n ≠ '\n' := by
  intro n
  match n with
  | 0 => decide
  | 1 => decide
  | 2 => decide
  | 3 => decide
  | 4 => decide
  | 5 => decide
  | 6 => decide
  | 7 => decide
  | 8 => decide
  | 9 => decide
  | 10 => decide
  | 11 => decide
  | 12 => decide
  | 13 => decide
  | 14 => decide
  | 15 => decide
  | m + 16 => show ('0' : Char) ≠ '\n'; decide

theorem newline_ne_hexDigitChar : ∀ n, '\n' ≠ hexDigitChar n :=
  fun n => (hexDigitChar_ne_newline n).symm

theorem newline_notin_escChar (c : Char) : '\n' ∉ escChar c := by
  unfold escChar
  split_ifs with h1 h2 h3 h4 h5 h6 h7 h8
  · decide
  · decide
  · decide
  · decide
  · decide
  · decide
  · decide
  · simp [newline_ne_hexDigitChar]
  · intro hmem
    simp at hmem
    rw [← hmem] at h8
    exact h8 (by decide)

theorem newline_notin_escapeList : ∀ s : List Char, '\n' ∉ escapeList s := by
  intro s
  induction s with
  | nil => simp [escapeList]
  | cons c cs ih =>
    simp [escapeList, List.mem_append]
    exact ⟨newline_notin_escChar c, ih⟩

theorem newline_notin_membersBody : ∀ ps : List (String × String),
    '\n' ∉ membersBody ps := by
  intro ps
  induction ps with
  | nil => simp [membersBody]
  | cons kv ps ih =>
    obtain ⟨k, v⟩ := kv
    cases ps with
    | nil =>
      show '\n' ∉ memberChars k v ++ ['\x7d']
      simp [memberChars, qchars, List.mem_append, newline_notin_escapeList]
    | cons kv2 ps2 =>
      show '\n' ∉ memberChars k v ++ ',' :: ' ' :: membersBody (kv2 :: ps2)
      simp [memberChars, qchars, List.mem_append, newline_notin_escapeList, ih]

theorem length_le_membersBody : ∀ ps : List (String × String),
    ps.length ≤ (membersBody ps).length := by
  intro ps
  induction ps with
  | nil => simp [membersBody]
  | cons kv ps ih =>
    obtain ⟨k, v⟩ := kv
    cases ps with
    | nil =>
      show 1 ≤ (memberChars k v ++ ['\x7d']).length
      simp
    | cons kv2 ps2 =>
      show (kv2 :: ps2).length + 1 ≤
        (memberChars k v ++ ',' :: ' ' :: membersBody (kv2 :: ps2)).length
      simp only [List.length_cons, List.length_append] at ih ⊢
      omega

theorem processStep_move_lemma (env : StepEnv) (s : AppState) (content : String)
    (d : DecisionDict) (cmd : Command)
    (hslot : s.num_processed < s.files_to_process.length)
    (hread : env.readResult = some content)
    (hdec : (analyze_resume env.call 3).1 = .returned d)
    (hcmd : d.command = some cmd)
    (hact : ¬ cmd.action = "SKIP") :
    processStep env s = .next
      { s with
        fs := (execute_file_move s.candidates_dir d.thought_process cmd
          (s.files_to_process.get ⟨s.num_processed, hslot⟩) env.humanAction env.now s.fs
          (s.messages
            ++ ["--- Processing File: " ++ s.files_to_process.get ⟨s.num_processed, hslot⟩ ++ " ---"]
            ++ ["Thinking... Calling Gemini API."]
            ++ ["Agent recommends: " ++ cmd.destination_folder ++ " - Reason: "
                ++ d.thought_process]
            ++ ["Decision Recommendation: " ++ cmd.destination_folder
                ++ " | User Action: " ++ env.humanAction])).1,
        messages := (execute_file_move s.candidates_dir d.thought_process cmd
          (s.files_to_process.get ⟨s.num_processed, hslot⟩) env.humanAction env.now s.fs
          (s.messages
            ++ ["--- Processing File: " ++ s.files_to_process.get ⟨s.num_processed, hslot⟩ ++ " ---"]
            ++ ["Thinking... Calling Gemini API."]
            ++ ["Agent recommends: " ++ cmd.destination_folder ++ " - Reason: "
                ++ d.thought_process]
            ++ ["Decision Recommendation: " ++ cmd.destination_folder
                ++ " | User Action: " ++ env.humanAction])).2,
        analyzeCalls := s.analyzeCalls + 1,
        gateShown := s.gateShown ++ [s.files_to_process.get ⟨s.num_processed, hslot⟩],
        num_processed := s.num_processed + 1 } := by
  simp only [processStep, dif_pos hslot, hread, hdec, hcmd, if_neg hact]

/-- C2: for a MOVE_FILE decision answered with APPROVE,
`execute_file_move` moves the file into exactly the recommended
destination folder, under its original filename, and logs the original
rationale unchanged. -/
theorem execute_file_move_approve_recommended (cdir thought : String) (cmd : Command)
    (filename now : String) (fs : FsState) (msgs : List String)
    (hsrc : pathJoin cdir filename ∈ fs.files) :
    ∃ fs2 msgs2,
      execute_file_move cdir thought cmd filename "APPROVE" now fs msgs = (fs2, msgs2)
      ∧ pathJoin (pathJoin (if dirname cdir = "" then "." else dirname cdir)
            cmd.destination_folder) filename ∈ fs2.files
      ∧ (pathJoin cdir filename =
            pathJoin (pathJoin (if dirname cdir = "" then "." else dirname cdir)
              cmd.destination_folder) filename
          ∨ pathJoin cdir filename ∉ fs2.files)
      ∧ fs2.audit = fs.audit ++
          [{ timestamp := now, file := filename, action := cmd.action,
             destination := cmd.destination_folder, reason := thought }] := by
  obtain ⟨fs1, hfiles, haudit, _, heq⟩ :=
    execute_file_move_success cdir thought cmd filename "APPROVE" now fs msgs hsrc
  have hff : finalFolder cmd.destination_folder "APPROVE" = cmd.destination_folder := by
    simp [finalFolder]
  have hfr : finalReason cmd.destination_folder thought "APPROVE" = thought := by
    simp [finalReason]
  rw [hff, hfr] at heq
  refine ⟨_, _, heq, ?_, ?_, ?_⟩
  · rw [log_action_files]
    simp
  · by_cases hsd : pathJoin cdir filename =
      pathJoin (pathJoin (if dirname cdir = "" then "." else dirname cdir)
        cmd.destination_folder) filename
    · exact Or.inl hsd
    · refine Or.inr ?_
      rw [log_action_files]
      simp [List.mem_filter, hsd]
  · rw [log_action_audit]
    simp [haudit]

/-- C6: an audit record is appended if and only if the filesystem move
succeeds: on success exactly one record is appended to the log; when the
move fails (source file missing), the error is reported to the
human-visible output, no audit record or audit-file text is written, the
file list is unchanged, and the outer loop still advances to the next
file with no automatic retry. -/
theorem execute_file_move_audit_iff_success (cdir thought : String) (cmd : Command)
    (filename user_action now : String) (fs : FsState) (msgs : List String) :
    (pathJoin cdir filename ∈ fs.files →
      ∃ fs2 msgs2 entry,
        execute_file_move cdir thought cmd filename user_action now fs msgs = (fs2, msgs2)
        ∧ fs2.audit = fs.audit ++ [entry]
        ∧ fs2.auditFile = fs.auditFile ++ auditLine entry)
    ∧ (pathJoin cdir filename ∉ fs.files →
      ∃ fs2 msgs2,
        execute_file_move cdir thought cmd filename user_action now fs msgs = (fs2, msgs2)
        ∧ fs2.audit = fs.audit
        ∧ fs2.auditFile = fs.auditFile
        ∧ fs2.files = fs.files
        ∧ msgs2 = msgs ++ authMessage cmd.destination_folder user_action
            ++ ["System Error Moving File: " ++ pathJoin cdir filename])
    ∧ (∀ env s content d c2 (_hslot : s.num_processed < s.files_to_process.length),
        env.readResult = some content →
        (analyze_resume env.call 3).1 = .returned d →
        d.command = some c2 → ¬ c2.action = "SKIP" →
        ∃ s2, processStep env s = .next s2
          ∧ s2.num_processed = s.num_processed + 1) := by
  refine ⟨?_, ?_, ?_⟩
  · intro hsrc
    obtain ⟨fs1, _, haudit, hauditFile, heq⟩ :=
      execute_file_move_success cdir thought cmd filename user_action now fs msgs hsrc
    refine ⟨_, _, ⟨now, filename, cmd.action,
      finalFolder cmd.destination_folder user_action,
      finalReason cmd.destination_folder thought user_action⟩, heq, ?_, ?_⟩
    · rw [log_action_audit]
      simp [haudit]
    · rw [log_action_auditFile]
      simp [hauditFile]
  · intro hsrc
    obtain ⟨fs1, hfiles, haudit, hauditFile, heq⟩ :=
      execute_file_move_failure cdir thought cmd filename user_action now fs msgs hsrc
    exact ⟨_, _, heq, haudit, hauditFile, hfiles, rfl⟩
  · intro env s content d c2 hslot hread hdec hcmd hact
    exact ⟨_, processStep_move_lemma env s content d c2 hslot hread hdec hcmd hact, rfl⟩

/-- C7: every call to `log_action` appends exactly one newline-terminated
JSON object to the audit log; the serialized line contains no newline,
parses back as a JSON object whose keys are exactly timestamp, file,
action, destination and reason with the logged values, and the loop's
explicit-SKIP entries carry destination N/A. -/
theorem log_action_single_json_line (filename action folder reason now : String)
    (fs : FsState) (r : AuditRecord) :
    (log_action filename action folder reason now fs).auditFile
      = fs.auditFile ++ auditLine
          { timestamp := now, file := filename, action := action,
            destination := folder, reason := reason }
    ∧ (log_action filename action folder reason now fs).audit
      = fs.audit ++ [{ timestamp := now, file := filename, action := action,
                       destination := folder, reason := reason }]
    ∧ (auditLine r).data = jsonChars r ++ ['\n']
    ∧ '\n' ∉ jsonChars r
    ∧ parseAuditLine ⟨jsonChars r⟩ =
        some [("timestamp", r.timestamp), ("file", r.file), ("action", r.action),
              ("destination", r.destination), ("reason", r.reason)]
    ∧ (∀ env s content d cmd (hslot : s.num_processed < s.files_to_process.length),
        env.readResult = some content →
        (analyze_resume env.call 3).1 = .returned d →
        d.command = some cmd → cmd.action = "SKIP" →
        ∃ s2, processStep env s = .next s2
          ∧ s2.fs.audit = s.fs.audit ++
              [{ timestamp := env.now,
                 file := s.files_to_process.get ⟨s.num_processed, hslot⟩,
                 action := "SKIP", destination := "N/A",
                 reason := d.thought_process }]) := by
  refine ⟨log_action_auditFile _ _ _ _ _ _, log_action_audit _ _ _ _ _ _, rfl, ?_, ?_, ?_⟩
  · show '\n' ∉ '\x7b' :: membersBody r.pairs
    simp [newline_notin_membersBody]
  · have hp : parseMembers ((membersBody r.pairs).length + 1) (membersBody r.pairs)
        = some (r.pairs, []) := by
      refine parseMembers_body r.pairs _ (by simp [AuditRecord.pairs]) ?_
      have := length_le_membersBody r.pairs
      omega
    have hgen : ∀ (l : List Char) (res : List (String × String)),
        parseMembers (l.length + 1) l = some (res, []) →
        parseAuditLine ⟨'\x7b' :: l⟩ = some res := by
      intro l res h
      simp [parseAuditLine, h]
    exact hgen (membersBody r.pairs) r.pairs hp
  · intro env s content d cmd hslot hread hdec hcmd hact
    obtain ⟨s2, h1, _, _, _, h5⟩ :=
      processStep_skip_no_move env s content d cmd hslot hread hdec hcmd hact
    exact ⟨s2, h1, h5⟩

/-- C8: when the resume-source directory or the job-description file does
not exist, `start_processing` logs an error and returns before starting
the run: no processing task is created, the filesystem (including the
audit log) is untouched, no model call happens and no authorization
screen is shown. -/
theorem start_processing_invalid_config (readFile : String → Option String)
    (jd_path cand_dir : String) (s : AppState)
    (hbad : ¬ pathExists s.fs cand_dir = true ∨ ¬ pathExists s.fs jd_path = true) :
    ∃ s2, start_processing readFile jd_path cand_dir s = .rejected s2
      ∧ s2.fs = s.fs
      ∧ s2.analyzeCalls = s.analyzeCalls
      ∧ s2.gateShown = s.gateShown
      ∧ s2.num_processed = s.num_processed
      ∧ s2.files_to_process = s.files_to_process
      ∧ s2.messages = s.messages ++ ["ERROR: One or both paths are invalid. Check paths."] := by
  have hres : start_processing readFile jd_path cand_dir s = .rejected
      { s with
        candidates_dir := cand_dir,
        job_desc_path := jd_path,
        messages := s.messages ++ ["ERROR: One or both paths are invalid. Check paths."] } := by
    show (if ¬ pathExists s.fs cand_dir = true ∨ ¬ pathExists s.fs jd_path = true then _ else _)
      = _
    rw [if_pos hbad]
  exact ⟨_, hres, rfl, rfl, rfl, rfl, rfl, rfl⟩

/-- C8 witness: a missing inbox directory is rejected with the error
message and an unchanged state. -/
theorem start_processing_invalid_config_witness :
    ∃ s2, start_processing (fun _ => some "jd text") "./data/job_description.txt" "./missing"
      { fs := { dirs := [], files := ["./data/job_description.txt"], audit := [], auditFile := "" },
        messages := [], candidates_dir := "", job_desc_path := "", job_desc := "",
        files_to_process := [], num_processed := 0, analyzeCalls := 0, gateShown := [] }
      = .rejected s2
      ∧ s2.fs = { dirs := [], files := ["./data/job_description.txt"], audit := [], auditFile := "" }
      ∧ s2.analyzeCalls = 0
      ∧ s2.gateShown = []
      ∧ s2.num_processed = 0
      ∧ s2.files_to_process = []
      ∧ s2.messages = ["ERROR: One or both paths are invalid. Check paths."] := by
  obtain ⟨s2, h1, h2, h3, h4, h5, h6, h7⟩ := start_processing_invalid_config
    (fun _ => some "jd text") "./data/job_description.txt" "./missing"
    { fs := { dirs := [], files := ["./data/job_description.txt"], audit := [], auditFile := "" },
      messages := [], candidates_dir := "", job_desc_path := "", job_desc := "",
      files_to_process := [], num_processed := 0, analyzeCalls := 0, gateShown := [] }
    (Or.inl (by decide))
  exact ⟨s2, h1, h2, h3, h4, h5, h6, by simpa using h7⟩

/-- C1 witness: a Rejected_Candidates recommendation overridden by the
user moves `a.txt` into `./data/Interview_Candidates` with the annotated
audit reason. -/
theorem execute_file_move_override_opposite_witness :
    ∃ fs2 msgs2,
      execute_file_move "./data/inbox" "low score"
        { action := "MOVE_FILE", destination_folder := "Rejected_Candidates" }
        "a.txt" "OVERRIDE" "T0"
        { dirs := ["./data", "./data/inbox"], files := ["./data/inbox/a.txt"],
          audit := [], auditFile := "" } [] = (fs2, msgs2)
      ∧ "./data/Interview_Candidates/a.txt" ∈ fs2.files
      ∧ "./data/inbox/a.txt" ∉ fs2.files
      ∧ fs2.audit = [{ timestamp := "T0", file := "a.txt", action := "MOVE_FILE",
                       destination := "Interview_Candidates",
                       reason := "USER OVERRIDE: Agent recommended Rejected_Candidates, user moved to Interview_Candidates. Agent Reason: low score" }] := by
  obtain ⟨fs2, msgs2, heq, _, _, hdest, hsrc2, haud, _, _⟩ :=
    execute_file_move_override_opposite "./data/inbox" "low score"
      { action := "MOVE_FILE", destination_folder := "Rejected_Candidates" }
      "a.txt" "T0"
      { dirs := ["./data", "./data/inbox"], files := ["./data/inbox/a.txt"],
        audit := [], auditFile := "" } []
      (Or.inr rfl) (by decide)
  refine ⟨fs2, msgs2, heq, ?_, ?_, ?_⟩
  · have hp : pathJoin (pathJoin
        (if dirname "./data/inbox" = "" then "." else dirname "./data/inbox")
        (oppositeFolder "Rejected_Candidates")) "a.txt"
        = "./data/Interview_Candidates/a.txt" := by decide
    rw [hp] at hdest
    exact hdest
  · rcases hsrc2 with h | h
    · exact absurd h (by decide)
    · have hp : pathJoin "./data/inbox" "a.txt" = "./data/inbox/a.txt" := by decide
      rw [hp] at h
      exact h
  · rw [haud]
    decide

/-- C2 witness: an approved Interview_Candidates recommendation moves
`b.txt` into `./data/Interview_Candidates/b.txt`. -/
theorem execute_file_move_approve_recommended_witness :
    ∃ fs2 msgs2,
      execute_file_move "./data/inbox" "great fit"
        { action := "MOVE_FILE", destination_folder := "Interview_Candidates" }
        "b.txt" "APPROVE" "T0"
        { dirs := ["./data", "./data/inbox"], files := ["./data/inbox/b.txt"],
          audit := [], auditFile := "" } [] = (fs2, msgs2)
      ∧ "./data/Interview_Candidates/b.txt" ∈ fs2.files
      ∧ "./data/inbox/b.txt" ∉ fs2.files
      ∧ fs2.audit = [{ timestamp := "T0", file := "b.txt", action := "MOVE_FILE",
                       destination := "Interview_Candidates", reason := "great fit" }] := by
  obtain ⟨fs2, msgs2, heq, hdest, hsrc2, haud⟩ :=
    execute_file_move_approve_recommended "./data/inbox" "great fit"
      { action := "MOVE_FILE", destination_folder := "Interview_Candidates" }
      "b.txt" "T0"
      { dirs := ["./data", "./data/inbox"], files := ["./data/inbox/b.txt"],
        audit := [], auditFile := "" } []
      (by decide)
  refine ⟨fs2, msgs2, heq, ?_, ?_, ?_⟩
  · have hp : pathJoin (pathJoin
        (if dirname "./data/inbox" = "" then "." else dirname "./data/inbox")
        "Interview_Candidates") "b.txt"
        = "./data/Interview_Candidates/b.txt" := by decide
    rw [hp] at hdest
    exact hdest
  · rcases hsrc2 with h | h
    · exact absurd h (by decide)
    · have hp : pathJoin "./data/inbox" "b.txt" = "./data/inbox/b.txt" := by decide
      rw [hp] at h
      exact h
  · rw [haud]
    decide

/-- C5 witness: an unparsable response on the first attempt yields the
JSONDecodeError fallback decision with the SKIP command. -/
theorem analyze_resume_nontransient_fallback_witness :
    analyze_resume (fun _ => .invalidJson) 3
      = (.returned (fallbackDecision "JSONDecodeError"), [])
    ∧ (fallbackDecision "JSONDecodeError").command =
        some { action := "SKIP", destination_folder := "Rejected_Candidates" } := by
  have h := analyze_resume_nontransient_fallback (fun _ => .invalidJson) 0 "JSONDecodeError"
    (by omega) (fun i hi => absurd hi (by omega)) rfl
  exact ⟨by simpa using h.1, h.2.2.1⟩

/-- C6 witness: moving a missing `c.txt` reports a system error and
writes no audit entry; the same move with the file present appends
exactly one entry. -/
theorem execute_file_move_audit_iff_success_witness :
    (∃ fs2 msgs2,
      execute_file_move "./data/inbox" "r"
        { action := "MOVE_FILE", destination_folder := "Interview_Candidates" }
        "c.txt" "APPROVE" "T0"
        { dirs := ["./data", "./data/inbox"], files := [],
          audit := [], auditFile := "" } [] = (fs2, msgs2)
      ∧ fs2.audit = []
      ∧ fs2.auditFile = ""
      ∧ fs2.files = []
      ∧ msgs2 = ["APPROVED: Moving to Interview_Candidates.",
                 "System Error Moving File: ./data/inbox/c.txt"])
    ∧ (∃ fs3 msgs3 entry,
      execute_file_move "./data/inbox" "r"
        { action := "MOVE_FILE", destination_folder := "Interview_Candidates" }
        "c.txt" "APPROVE" "T0"
        { dirs := ["./data", "./data/inbox"], files := ["./data/inbox/c.txt"],
          audit := [], auditFile := "" } [] = (fs3, msgs3)
      ∧ fs3.audit = [entry]) := by
  constructor
  · obtain ⟨fs2, msgs2, heq, h2, h3, h4, h5⟩ :=
      (execute_file_move_audit_iff_success "./data/inbox" "r"
        { action := "MOVE_FILE", destination_folder := "Interview_Candidates" }
        "c.txt" "APPROVE" "T0"
        { dirs := ["./data", "./data/inbox"], files := [],
          audit := [], auditFile := "" } []).2.1 (by decide)
    refine ⟨fs2, msgs2, heq, h2, h3, h4, ?_⟩
    rw [h5]
    decide
  · obtain ⟨fs3, msgs3, entry, heq, h2, _⟩ :=
      (execute_file_move_audit_iff_success "./data/inbox" "r"
        { action := "MOVE_FILE", destination_folder := "Interview_Candidates" }
        "c.txt" "APPROVE" "T0"
        { dirs := ["./data", "./data/inbox"], files := ["./data/inbox/c.txt"],
          audit := [], auditFile := "" } []).1 (by decide)
    exact ⟨fs3, msgs3, entry, heq, by simpa using h2⟩

/-- C7 witness: a concrete audit record round-trips through the JSON
line, and a SKIP step logs destination N/A. -/
theorem log_action_single_json_line_witness :
    parseAuditLine ⟨jsonChars ⟨"T0", "a.txt", "MOVE_FILE", "Interview_Candidates", "good fit"⟩⟩
      = some [("timestamp", "T0"), ("file", "a.txt"), ("action", "MOVE_FILE"),
              ("destination", "Interview_Candidates"), ("reason", "good fit")]
    ∧ (∃ s2, processStep
        { readResult := some "txt", call := fun _ => .emptyResponse,
          humanAction := "APPROVE", now := "T1" }
        { fs := { dirs := [], files := [], audit := [], auditFile := "" },
          messages := [], candidates_dir := "./data/inbox",
          job_desc_path := "p", job_desc := "jd",
          files_to_process := ["z.txt"], num_processed := 0,
          analyzeCalls := 0, gateShown := [] } = .next s2
        ∧ s2.fs.audit = [{ timestamp := "T1", file := "z.txt", action := "SKIP",
                           destination := "N/A",
                           reason := "ERROR: Failed plan generation due to ValueError." }]) := by
  have h := log_action_single_json_line "a.txt" "MOVE_FILE" "Interview_Candidates" "good fit"
    "T0" { dirs := [], files := [], audit := [], auditFile := "" }
    ⟨"T0", "a.txt", "MOVE_FILE", "Interview_Candidates", "good fit"⟩
  refine ⟨h.2.2.2.2.1, ?_⟩
  obtain ⟨s2, h1, h2⟩ := h.2.2.2.2.2
    { readResult := some "txt", call := fun _ => .emptyResponse,
      humanAction := "APPROVE", now := "T1" }
    { fs := { dirs := [], files := [], audit := [], auditFile := "" },
      messages := [], candidates_dir := "./data/inbox",
      job_desc_path := "p", job_desc := "jd",
      files_to_process := ["z.txt"], num_processed := 0,
      analyzeCalls := 0, gateShown := [] }
    "txt" (fallbackDecision "ValueError")
    { action := "SKIP", destination_folder := "Rejected_Candidates" }
    (by decide) rfl rfl rfl rfl
  exact ⟨s2, h1, by simpa using h2⟩
